import Mathlib

/-!
# Verification of the anniversary-reminder bot core (`src/bot.py`)

Shallow embedding of the date logic, command parsing and reminder-scan
engine of the bot, together with proofs of the specified properties.

Modelling conventions:
* Python's `datetime.date` is modelled as a proleptic Gregorian calendar
  date with an unbounded integer year (structure `Date` plus the validity
  predicate `isValidDate`); `date + timedelta(days=n)` is modelled by
  `shift`, the `n`-fold iteration of the successor (or predecessor) of a
  calendar day.
* Functions that can raise in Python return `Option`/`Except` here, with
  `none`/`.error` standing for the raised exception.
* `datetime.strptime` for the two fixed formats `%Y-%m-%d` and `%d.%m.%Y`
  is modelled character by character, following CPython's `_strptime`
  regexes (`%Y` is exactly four digits, `%m` matches `1[0-2]|0[1-9]|[1-9]`,
  `%d` matches `3[01]|[12]\d|0[1-9]|[1-9]`, alternatives tried in order
  with backtracking inside the pattern, and the whole string must be
  consumed).
-/

/-- A calendar date, as Python's `datetime.date`: year, month, day.
The year is an unbounded integer (proleptic Gregorian). -/
structure Date where
  year : Int
  month : Nat
  day : Nat
deriving DecidableEq

/-- Gregorian leap-year rule, as Python's `calendar.isleap` /
`datetime`'s internal `_is_leap`. -/
def isLeap (y : Int) : Bool :=
  y % 4 == 0 && (y % 100 != 0 || y % 400 == 0)

/-- Number of days in a month, as `datetime`'s `_days_in_month`. -/
def monthLength (y : Int) (m : Nat) : Nat :=
  if m = 2 then (if isLeap y then 29 else 28)
  else if m = 4 ∨ m = 6 ∨ m = 9 ∨ m = 11 then 30
  else 31

/-- Validity of a (year, month, day) triple as a calendar date: the check
performed by the `datetime.date` constructor (with the year range
abstracted to all integers). -/
def isValidDate (d : Date) : Bool :=
  1 ≤ d.month && d.month ≤ 12 && 1 ≤ d.day && d.day ≤ monthLength d.year d.month

/-- The day after `d` (one step of `date + timedelta(days=1)`). -/
def succDate (d : Date) : Date :=
  if d.day < monthLength d.year d.month then ⟨d.year, d.month, d.day + 1⟩
  else if d.month < 12 then ⟨d.year, d.month + 1, 1⟩
  else ⟨d.year + 1, 1, 1⟩

/-- The day before `d` (one step of `date - timedelta(days=1)`). -/
def predDate (d : Date) : Date :=
  if 1 < d.day then ⟨d.year, d.month, d.day - 1⟩
  else if 1 < d.month then ⟨d.year, d.month - 1, monthLength d.year (d.month - 1)⟩
  else ⟨d.year - 1, 12, 31⟩

/-- `n` days after `d`. -/
def addN : Nat → Date → Date
  | 0, d => d
  | n + 1, d => addN n (succDate d)

/-- `n` days before `d`. -/
def subN : Nat → Date → Date
  | 0, d => d
  | n + 1, d => predDate (subN n d)

/-- `d + timedelta(days=k)` for an arbitrary integer `k`: iterated
successor for `k ≥ 0`, iterated predecessor otherwise. -/
def shift (k : Int) (d : Date) : Date :=
  if 0 ≤ k then addN k.toNat d else subN (-k).toNat d

theorem monthLength_ge_28 (y : Int) (m : Nat) : 28 ≤ monthLength y m := by
  unfold monthLength
  split_ifs <;> omega

theorem monthLength_le_31 (y : Int) (m : Nat) : monthLength y m ≤ 31 := by
  unfold monthLength
  split_ifs <;> omega

theorem monthLength_year_irrel {y y' : Int} {m : Nat} (h : m ≠ 2) :
    monthLength y m = monthLength y' m := by
  unfold monthLength
  simp [h]

theorem monthLength_twelve (y : Int) : monthLength y 12 = 31 := by
  unfold monthLength
  norm_num

theorem isValidDate_succ {d : Date} (h : isValidDate d = true) :
    isValidDate (succDate d) = true := by
  unfold isValidDate at *
  unfold succDate
  simp only [Bool.and_eq_true, decide_eq_true_eq] at *
  have h31 := monthLength_le_31 d.year d.month
  have h28s := monthLength_ge_28 d.year (d.month + 1)
  have h281 := monthLength_ge_28 (d.year + 1) 1
  split_ifs with h1 h2 <;> simp only [] <;> omega

theorem isValidDate_pred {d : Date} (h : isValidDate d = true) :
    isValidDate (predDate d) = true := by
  unfold isValidDate at *
  unfold predDate
  simp only [Bool.and_eq_true, decide_eq_true_eq] at *
  have h28p := monthLength_ge_28 d.year (d.month - 1)
  have h12 := monthLength_twelve (d.year - 1)
  split_ifs with h1 h2 <;> simp only [] <;> omega

theorem predDate_succDate {d : Date} (h : isValidDate d = true) :
    predDate (succDate d) = d := by
  obtain ⟨y, m, dy⟩ := d
  unfold isValidDate at h
  simp only [Bool.and_eq_true, decide_eq_true_eq] at h
  have h28 := monthLength_ge_28 y m
  have h12 := monthLength_twelve y
  unfold succDate predDate
  dsimp only at *
  split_ifs with h1 h2 h3 h4 h5 h6 h7 <;> dsimp only at * <;>
      simp only [Date.mk.injEq, Nat.add_sub_cancel] at * <;> try omega
  · simp only [true_and]
    omega
  · have hm : m = 12 := by omega
    subst hm
    exact ⟨by omega, rfl, by omega⟩

theorem succDate_predDate {d : Date} (h : isValidDate d = true) :
    succDate (predDate d) = d := by
  obtain ⟨y, m, dy⟩ := d
  unfold isValidDate at h
  simp only [Bool.and_eq_true, decide_eq_true_eq] at h
  have h28 := monthLength_ge_28 y m
  have h28p := monthLength_ge_28 y (m - 1)
  have h31p := monthLength_le_31 y (m - 1)
  have h12 := monthLength_twelve (y - 1)
  unfold predDate succDate
  dsimp only at *
  split_ifs with h1 h2 h3 h4 h5 h6 h7 <;> dsimp only at * <;>
      simp only [Date.mk.injEq] at * <;> try omega
  · -- stepped within the month: day goes down one and back up
    simp only [true_and]
    omega
  · -- stepped back to the first day of the month and forward again
    simp only [true_and]
    omega

theorem addN_valid {n : Nat} {d : Date} (h : isValidDate d = true) :
    isValidDate (addN n d) = true := by
  induction n generalizing d with
  | zero => exact h
  | succ k ih => exact ih (isValidDate_succ h)

theorem subN_valid {n : Nat} {d : Date} (h : isValidDate d = true) :
    isValidDate (subN n d) = true := by
  induction n with
  | zero => exact h
  | succ k ih => exact isValidDate_pred ih

theorem subN_addN {n : Nat} {d : Date} (h : isValidDate d = true) :
    subN n (addN n d) = d := by
  induction n generalizing d with
  | zero => rfl
  | succ k ih =>
      show predDate (subN k (addN k (succDate d))) = d
      rw [ih (isValidDate_succ h)]
      exact predDate_succDate h

theorem addN_subN {n : Nat} {d : Date} (h : isValidDate d = true) :
    addN n (subN n d) = d := by
  induction n generalizing d with
  | zero => rfl
  | succ k ih =>
      show addN k (succDate (predDate (subN k d))) = d
      rw [succDate_predDate (subN_valid h)]
      exact ih h

theorem shift_valid {k : Int} {d : Date} (h : isValidDate d = true) :
    isValidDate (shift k d) = true := by
  unfold shift
  split_ifs <;> [exact addN_valid h; exact subN_valid h]

theorem shift_neg_shift {k : Int} {d : Date} (h : isValidDate d = true) :
    shift (-k) (shift k d) = d := by
  unfold shift
  rcases lt_trichotomy k 0 with hk | hk | hk
  · have h1 : ¬(0:Int) ≤ k := by omega
    have h2 : (0:Int) ≤ -k := by omega
    rw [if_neg h1, if_pos h2]
    exact addN_subN h
  · subst hk
    rfl
  · have h1 : (0:Int) ≤ k := by omega
    have h2 : ¬(0:Int) ≤ -k := by omega
    rw [if_pos h1, if_neg h2, neg_neg]
    exact subN_addN h

theorem shift_shift_neg {k : Int} {d : Date} (h : isValidDate d = true) :
    shift k (shift (-k) d) = d := by
  have := @shift_neg_shift (-k) _ h
  rwa [neg_neg] at this

/-- Models `d.replace(year=year)` from Python: rebuilding the date with a
new year re-runs the constructor's validity check; `none` models the
raised `ValueError`. -/
def replaceYear (d : Date) (y : Int) : Option Date :=
  if isValidDate ⟨y, d.month, d.day⟩ then some ⟨y, d.month, d.day⟩ else none

/-- `normalize_anniversary(d, year)` from `src/bot.py`: try
`d.replace(year=year)`; on `ValueError`, return February 28 of `year`
when `d` is February 29, otherwise re-raise (modelled as `none`). -/
def normalize_anniversary (d : Date) (year : Int) : Option Date :=
  match replaceYear d year with
  | some r => some r
  | none => if d.month = 2 ∧ d.day = 29 then some ⟨year, 2, 28⟩ else none

/-- `is_anniversary_in_days(d, today, days_ahead)` from `src/bot.py`:
`false` for a missing date, otherwise compare month and day of the
normalized anniversary against `target = today + timedelta(days=days_ahead)`.
A `none` result models an exception escaping `normalize_anniversary`. -/
def is_anniversary_in_days (d : Option Date) (today : Date) (days_ahead : Int) :
    Option Bool :=
  match d with
  | none => some false
  | some dd =>
    let target := shift days_ahead today
    match normalize_anniversary dd target.year with
    | none => none
    | some anniv => some (anniv.month == target.month && anniv.day == target.day)

/-- Day-of-month of the anniversary of `d` in year `y` after the
February-29 fallback policy. -/
def annivDay (d : Date) (y : Int) : Nat :=
  if d.month = 2 ∧ d.day = 29 ∧ isLeap y = false then 28 else d.day

theorem isValidDate_reanchor {d : Date} (h : isValidDate d = true) (y : Int)
    (hnot : ¬(d.month = 2 ∧ d.day = 29 ∧ isLeap y = false)) :
    isValidDate ⟨y, d.month, d.day⟩ = true := by
  unfold isValidDate at *
  simp only [Bool.and_eq_true, decide_eq_true_eq] at *
  try dsimp only at *
  refine ⟨⟨⟨h.1.1.1, h.1.1.2⟩, h.1.2⟩, ?_⟩
  by_cases hm : d.month = 2
  · have h1 : monthLength d.year d.month ≤ 29 := by
      rw [hm]; unfold monthLength; split_ifs <;> omega
    have h2 := monthLength_ge_28 y d.month
    by_cases h29 : d.day = 29
    · have hl : isLeap y = true := by
        rcases Bool.eq_false_or_eq_true (isLeap y) with ht | hf
        · exact ht
        · exact absurd ⟨hm, h29, hf⟩ hnot
      have : monthLength y d.month = 29 := by
        rw [hm]; unfold monthLength; simp [hl]
      omega
    · omega
  · have := @monthLength_year_irrel d.year y d.month hm
    omega

theorem annivTarget_valid {d : Date} (h : isValidDate d = true) (y : Int) :
    isValidDate ⟨y, d.month, annivDay d y⟩ = true := by
  by_cases hc : d.month = 2 ∧ d.day = 29 ∧ isLeap y = false
  · obtain ⟨hm, h29, hl⟩ := hc
    unfold annivDay
    rw [if_pos ⟨hm, h29, hl⟩, hm]
    unfold isValidDate
    dsimp only
    have := monthLength_ge_28 y 2
    simp only [Bool.and_eq_true, decide_eq_true_eq]
    omega
  · unfold annivDay
    rw [if_neg hc]
    exact isValidDate_reanchor h y hc

theorem normalize_anniversary_eq {d : Date} (h : isValidDate d = true) (y : Int) :
    normalize_anniversary d y = some ⟨y, d.month, annivDay d y⟩ := by
  unfold normalize_anniversary replaceYear
  by_cases hc : d.month = 2 ∧ d.day = 29 ∧ isLeap y = false
  · obtain ⟨hm, h29, hl⟩ := hc
    have hinv : isValidDate ⟨y, d.month, d.day⟩ = false := by
      unfold isValidDate
      dsimp only
      rw [hm, h29]
      have : monthLength y 2 = 28 := by unfold monthLength; simp [hl]
      simp [this]
    rw [hinv]
    simp only [Bool.false_eq_true, if_false]
    rw [if_pos ⟨hm, h29⟩]
    unfold annivDay
    rw [if_pos ⟨hm, h29, hl⟩, hm]
  · have hval := isValidDate_reanchor h y hc
    rw [hval]
    simp only [if_true]
    unfold annivDay
    rw [if_neg hc]

theorem is_anniversary_eq {d : Date} (h : isValidDate d = true) (today : Date) (k : Int) :
    is_anniversary_in_days (some d) today k =
      some (d.month == (shift k today).month &&
            annivDay d (shift k today).year == (shift k today).day) := by
  unfold is_anniversary_in_days
  dsimp only
  rw [normalize_anniversary_eq h]

theorem date_ext {a b : Date} (hy : a.year = b.year) (hm : a.month = b.month)
    (hd : a.day = b.day) : a = b := by
  cases a
  cases b
  simp_all

/-- For a fixed valid original date, lead time and target year, there is
exactly one valid trigger day whose lookahead target falls in that year
and matches the anniversary. -/
theorem existsUnique_trigger {d : Date} (hd : isValidDate d = true) (lead y : Int) :
    ∃! today : Date, isValidDate today = true ∧ (shift lead today).year = y ∧
      is_anniversary_in_days (some d) today lead = some true := by
  have htv : isValidDate ⟨y, d.month, annivDay d y⟩ = true := annivTarget_valid hd y
  refine ⟨shift (-lead) ⟨y, d.month, annivDay d y⟩, ⟨shift_valid htv, ?_, ?_⟩, ?_⟩
  · rw [shift_shift_neg htv]
  · rw [is_anniversary_eq hd, shift_shift_neg htv]
    simp
  · rintro t ⟨htval, hty, hmatch⟩
    rw [is_anniversary_eq hd] at hmatch
    simp only [Option.some.injEq, Bool.and_eq_true, beq_iff_eq] at hmatch
    have hteq : shift lead t = ⟨y, d.month, annivDay d y⟩ := by
      refine date_ext hty ?_ ?_
      · exact hmatch.1.symm
      · rw [← hmatch.2, hty]
    have h2 := congrArg (shift (-lead)) hteq
    rw [shift_neg_shift htval] at h2
    exact h2

/-- ASCII whitespace stripped by Python's `str.strip()`. -/
def pyIsSpace (c : Char) : Bool :=
  c = ' ' || c = '\t' || c = '\n' || c = '\x0b' || c = '\x0c' || c = '\r'

/-- Python's `str.strip()` on a character list. -/
def pyStrip (cs : List Char) : List Char :=
  ((cs.dropWhile pyIsSpace).reverse.dropWhile pyIsSpace).reverse

/-- Python's `str.strip()`. -/
def pyStripS (s : String) : String := String.mk (pyStrip s.data)

def isDigitChar (c : Char) : Bool := '0' ≤ c && c ≤ '9'

def digitVal (c : Char) : Nat := c.toNat - 48

/-- `strptime`'s `%Y`: exactly four digits. -/
def matchY4 : List Char → Option (Nat × List Char)
  | a :: b :: c :: e :: rest =>
      if isDigitChar a && isDigitChar b && isDigitChar c && isDigitChar e then
        some (1000 * digitVal a + 100 * digitVal b + 10 * digitVal c + digitVal e, rest)
      else none
  | _ => none

/-- `%Y` at the end of the format: the whole remaining input must be
consumed (CPython checks that the regex match spans the full string). -/
def matchY4End (cs : List Char) : Option Nat :=
  match matchY4 cs with
  | some (y, []) => some y
  | _ => none

/-- `strptime`'s `%m` (regex `1[0-2]|0[1-9]|[1-9]`) followed by the literal
separator `sep`; the regex engine's ordered alternation with backtracking
is compiled into an ordered chain of tests. -/
def matchMonthSep (sep : Char) : List Char → Option (Nat × List Char)
  | c1 :: c2 :: c3 :: rest =>
      if c1 = '1' ∧ ('0' ≤ c2 ∧ c2 ≤ '2') ∧ c3 = sep then
        some (10 + digitVal c2, rest)
      else if c1 = '0' ∧ ('1' ≤ c2 ∧ c2 ≤ '9') ∧ c3 = sep then
        some (digitVal c2, rest)
      else if ('1' ≤ c1 ∧ c1 ≤ '9') ∧ c2 = sep then
        some (digitVal c1, c3 :: rest)
      else none
  | [c1, c2] =>
      if ('1' ≤ c1 ∧ c1 ≤ '9') ∧ c2 = sep then some (digitVal c1, []) else none
  | _ => none

/-- `strptime`'s `%d` (regex `3[01]|[12]\d|0[1-9]|[1-9]`) followed by the
literal separator `sep`, ordered alternation compiled as for `%m`. -/
def matchDaySep (sep : Char) : List Char → Option (Nat × List Char)
  | c1 :: c2 :: c3 :: rest =>
      if c1 = '3' ∧ ('0' ≤ c2 ∧ c2 ≤ '1') ∧ c3 = sep then
        some (30 + digitVal c2, rest)
      else if ('1' ≤ c1 ∧ c1 ≤ '2') ∧ isDigitChar c2 = true ∧ c3 = sep then
        some (10 * digitVal c1 + digitVal c2, rest)
      else if c1 = '0' ∧ ('1' ≤ c2 ∧ c2 ≤ '9') ∧ c3 = sep then
        some (digitVal c2, rest)
      else if ('1' ≤ c1 ∧ c1 ≤ '9') ∧ c2 = sep then
        some (digitVal c1, c3 :: rest)
      else none
  | [c1, c2] =>
      if ('1' ≤ c1 ∧ c1 ≤ '9') ∧ c2 = sep then some (digitVal c1, []) else none
  | _ => none

/-- `strptime`'s `%d` at the end of the format: the regex picks the first
alternative that matches, and afterwards the whole input must have been
consumed (no backtracking over that final length check). -/
def matchDayEnd : List Char → Option Nat
  | [c1] => if '1' ≤ c1 ∧ c1 ≤ '9' then some (digitVal c1) else none
  | [c1, c2] =>
      if c1 = '3' ∧ ('0' ≤ c2 ∧ c2 ≤ '1') then some (30 + digitVal c2)
      else if ('1' ≤ c1 ∧ c1 ≤ '2') ∧ isDigitChar c2 = true then
        some (10 * digitVal c1 + digitVal c2)
      else if c1 = '0' ∧ ('1' ≤ c2 ∧ c2 ≤ '9') then some (digitVal c2)
      else none
  | _ => none

/-- The `datetime.date(y, m, d)` constructor: validates year range, month
and day; `none` models the raised `ValueError`. -/
def mkPyDate (y m d : Nat) : Option Date :=
  if 1 ≤ y ∧ y ≤ 9999 ∧ 1 ≤ m ∧ m ≤ 12 ∧ 1 ≤ d ∧ d ≤ monthLength (y : Int) m then
    some ⟨(y : Int), m, d⟩
  else none

/-- `datetime.strptime(s, "%Y-%m-%d").date()`. -/
def strptimeYMD (cs : List Char) : Option Date :=
  match matchY4 cs with
  | none => none
  | some (y, r1) =>
    match r1 with
    | c :: r2 =>
      if c = '-' then
        match matchMonthSep '-' r2 with
        | none => none
        | some (m, r3) =>
          match matchDayEnd r3 with
          | none => none
          | some d => mkPyDate y m d
      else none
    | [] => none

/-- `datetime.strptime(s, "%d.%m.%Y").date()`. -/
def strptimeDMY (cs : List Char) : Option Date :=
  match matchDaySep '.' cs with
  | none => none
  | some (d, r1) =>
    match matchMonthSep '.' r1 with
    | none => none
    | some (m, r2) =>
      match matchY4End r2 with
      | none => none
      | some y => mkPyDate y m d

/-- `parse_date(s)` from `src/bot.py`: strip, return `None` when empty,
select the format by the presence of `-` or `.`, and swallow any
`ValueError` into `None`. -/
def parse_date (s : String) : Option Date :=
  let t := pyStrip s.data
  if t = [] then none
  else if t.contains '-' then strptimeYMD t
  else if t.contains '.' then strptimeDMY t
  else none

/-- The ASCII digit character for `n < 10`. -/
def digitChar (n : Nat) : Char := Char.ofNat (48 + n)

/-- Two-digit zero-padded rendering. -/
def pad2 (n : Nat) : List Char := [digitChar (n / 10), digitChar (n % 10)]

/-- Four-digit zero-padded rendering. -/
def pad4 (n : Nat) : List Char :=
  [digitChar (n / 1000), digitChar (n / 100 % 10), digitChar (n / 10 % 10), digitChar (n % 10)]

/-- The canonical `YYYY-MM-DD` textual form of a date. -/
def isoString (y m d : Nat) : String :=
  String.mk (pad4 y ++ '-' :: (pad2 m ++ '-' :: pad2 d))

/-- The canonical `DD.MM.YYYY` textual form of a date. -/
def dmyString (y m d : Nat) : String :=
  String.mk (pad2 d ++ '.' :: (pad2 m ++ '.' :: pad4 y))

theorem digitVal_digitChar {k : Nat} (h : k < 10) : digitVal (digitChar k) = k := by
  interval_cases k <;> decide

theorem isDigitChar_digitChar {k : Nat} (h : k < 10) : isDigitChar (digitChar k) = true := by
  interval_cases k <;> decide

theorem digitChar_not_space {k : Nat} (h : k < 10) : pyIsSpace (digitChar k) = false := by
  interval_cases k <;> decide

theorem digitChar_ne_dash {k : Nat} (h : k < 10) : digitChar k ≠ '-' := by
  interval_cases k <;> decide

theorem digitChar_ne_dot {k : Nat} (h : k < 10) : digitChar k ≠ '.' := by
  interval_cases k <;> decide

theorem digitChar_eq_one_iff {k : Nat} (h : k < 10) : digitChar k = '1' ↔ k = 1 := by
  interval_cases k <;> simp <;> decide

theorem digitChar_eq_zero_iff {k : Nat} (h : k < 10) : digitChar k = '0' ↔ k = 0 := by
  interval_cases k <;> simp <;> decide

theorem digitChar_eq_three_iff {k : Nat} (h : k < 10) : digitChar k = '3' ↔ k = 3 := by
  interval_cases k <;> simp <;> decide

theorem zero_le_digitChar {k : Nat} (h : k < 10) : '0' ≤ digitChar k := by
  interval_cases k <;> decide

theorem digitChar_le_nine {k : Nat} (h : k < 10) : digitChar k ≤ '9' := by
  interval_cases k <;> decide

theorem one_le_digitChar_iff {k : Nat} (h : k < 10) : '1' ≤ digitChar k ↔ 1 ≤ k := by
  interval_cases k <;> simp <;> decide

theorem digitChar_le_two_iff {k : Nat} (h : k < 10) : digitChar k ≤ '2' ↔ k ≤ 2 := by
  interval_cases k <;> simp <;> decide

theorem digitChar_le_one_iff {k : Nat} (h : k < 10) : digitChar k ≤ '1' ↔ k ≤ 1 := by
  interval_cases k <;> simp <;> decide

theorem matchY4_pad4 {y : Nat} (h : y ≤ 9999) (rest : List Char) :
    matchY4 (pad4 y ++ rest) = some (y, rest) := by
  have h1 : y / 1000 < 10 := by omega
  have h2 : y / 100 % 10 < 10 := by omega
  have h3 : y / 10 % 10 < 10 := by omega
  have h4 : y % 10 < 10 := by omega
  simp only [pad4, List.cons_append, List.nil_append]
  unfold matchY4
  dsimp only
  rw [if_pos]
  · simp only [Option.some.injEq, Prod.mk.injEq]
    refine ⟨?_, trivial⟩
    rw [digitVal_digitChar h1, digitVal_digitChar h2, digitVal_digitChar h3,
      digitVal_digitChar h4]
    omega
  · rw [isDigitChar_digitChar h1, isDigitChar_digitChar h2, isDigitChar_digitChar h3,
      isDigitChar_digitChar h4]
    rfl

theorem matchY4End_pad4 {y : Nat} (h : y ≤ 9999) : matchY4End (pad4 y) = some y := by
  unfold matchY4End
  rw [show pad4 y = pad4 y ++ [] from (List.append_nil _).symm, matchY4_pad4 h]

theorem matchMonthSep_pad2 (sep : Char) {m : Nat} (hm1 : 1 ≤ m) (hm2 : m ≤ 12)
    (rest : List Char) : matchMonthSep sep (pad2 m ++ sep :: rest) = some (m, rest) := by
  have ha : m / 10 < 10 := by omega
  have hb : m % 10 < 10 := by omega
  simp only [pad2, List.cons_append, List.nil_append]
  unfold matchMonthSep
  dsimp only
  by_cases hm : m ≤ 9
  · have hd0 : m / 10 = 0 := by omega
    have hc1 : ¬(digitChar (m / 10) = '1' ∧ ('0' ≤ digitChar (m % 10) ∧
        digitChar (m % 10) ≤ '2') ∧ sep = sep) := by
      rintro ⟨hx, -, -⟩
      rw [digitChar_eq_one_iff ha] at hx
      omega
    have hc2 : digitChar (m / 10) = '0' ∧ ('1' ≤ digitChar (m % 10) ∧
        digitChar (m % 10) ≤ '9') ∧ sep = sep := by
      refine ⟨?_, ⟨?_, digitChar_le_nine hb⟩, rfl⟩
      · rw [hd0]; decide
      · rw [one_le_digitChar_iff hb]; omega
    rw [if_neg hc1, if_pos hc2]
    simp only [Option.some.injEq, Prod.mk.injEq]
    exact ⟨by rw [digitVal_digitChar hb]; omega, trivial⟩
  · have hd1 : m / 10 = 1 := by omega
    have hc1 : digitChar (m / 10) = '1' ∧ ('0' ≤ digitChar (m % 10) ∧
        digitChar (m % 10) ≤ '2') ∧ sep = sep := by
      refine ⟨?_, ⟨zero_le_digitChar hb, ?_⟩, rfl⟩
      · rw [hd1]; decide
      · rw [digitChar_le_two_iff hb]; omega
    rw [if_pos hc1]
    simp only [Option.some.injEq, Prod.mk.injEq]
    exact ⟨by rw [digitVal_digitChar hb]; omega, trivial⟩

theorem matchDaySep_pad2 (sep : Char) {d : Nat} (hd1 : 1 ≤ d) (hd2 : d ≤ 31)
    (rest : List Char) : matchDaySep sep (pad2 d ++ sep :: rest) = some (d, rest) := by
  have ha : d / 10 < 10 := by omega
  have hb : d % 10 < 10 := by omega
  simp only [pad2, List.cons_append, List.nil_append]
  unfold matchDaySep
  dsimp only
  by_cases h9 : d ≤ 9
  · have hq : d / 10 = 0 := by omega
    have hc1 : ¬(digitChar (d / 10) = '3' ∧ ('0' ≤ digitChar (d % 10) ∧
        digitChar (d % 10) ≤ '1') ∧ sep = sep) := by
      rintro ⟨hx, -, -⟩
      rw [digitChar_eq_three_iff ha] at hx
      omega
    have hc2 : ¬(('1' ≤ digitChar (d / 10) ∧ digitChar (d / 10) ≤ '2') ∧
        isDigitChar (digitChar (d % 10)) = true ∧ sep = sep) := by
      rintro ⟨⟨hx, -⟩, -, -⟩
      rw [one_le_digitChar_iff ha] at hx
      omega
    have hc3 : digitChar (d / 10) = '0' ∧ ('1' ≤ digitChar (d % 10) ∧
        digitChar (d % 10) ≤ '9') ∧ sep = sep := by
      refine ⟨?_, ⟨?_, digitChar_le_nine hb⟩, rfl⟩
      · rw [hq]; decide
      · rw [one_le_digitChar_iff hb]; omega
    rw [if_neg hc1, if_neg hc2, if_pos hc3]
    simp only [Option.some.injEq, Prod.mk.injEq]
    exact ⟨by rw [digitVal_digitChar hb]; omega, trivial⟩
  · by_cases h29 : d ≤ 29
    · have hq : 1 ≤ d / 10 ∧ d / 10 ≤ 2 := by omega
      have hc1 : ¬(digitChar (d / 10) = '3' ∧ ('0' ≤ digitChar (d % 10) ∧
          digitChar (d % 10) ≤ '1') ∧ sep = sep) := by
        rintro ⟨hx, -, -⟩
        rw [digitChar_eq_three_iff ha] at hx
        omega
      have hc2 : ('1' ≤ digitChar (d / 10) ∧ digitChar (d / 10) ≤ '2') ∧
          isDigitChar (digitChar (d % 10)) = true ∧ sep = sep := by
        refine ⟨⟨?_, ?_⟩, isDigitChar_digitChar hb, rfl⟩
        · rw [one_le_digitChar_iff ha]; omega
        · rw [digitChar_le_two_iff ha]; omega
      rw [if_neg hc1, if_pos hc2]
      simp only [Option.some.injEq, Prod.mk.injEq]
      exact ⟨by rw [digitVal_digitChar ha, digitVal_digitChar hb]; omega, trivial⟩
    · have hq : d / 10 = 3 := by omega
      have hc1 : digitChar (d / 10) = '3' ∧ ('0' ≤ digitChar (d % 10) ∧
          digitChar (d % 10) ≤ '1') ∧ sep = sep := by
        refine ⟨?_, ⟨zero_le_digitChar hb, ?_⟩, rfl⟩
        · rw [hq]; decide
        · rw [digitChar_le_one_iff hb]; omega
      rw [if_pos hc1]
      simp only [Option.some.injEq, Prod.mk.injEq]
      exact ⟨by rw [digitVal_digitChar hb]; omega, trivial⟩

theorem matchDayEnd_pad2 {d : Nat} (hd1 : 1 ≤ d) (hd2 : d ≤ 31) :
    matchDayEnd (pad2 d) = some d := by
  have ha : d / 10 < 10 := by omega
  have hb : d % 10 < 10 := by omega
  simp only [pad2]
  unfold matchDayEnd
  dsimp only
  by_cases h9 : d ≤ 9
  · have hq : d / 10 = 0 := by omega
    have hc1 : ¬(digitChar (d / 10) = '3' ∧ ('0' ≤ digitChar (d % 10) ∧
        digitChar (d % 10) ≤ '1')) := by
      rintro ⟨hx, -⟩
      rw [digitChar_eq_three_iff ha] at hx
      omega
    have hc2 : ¬(('1' ≤ digitChar (d / 10) ∧ digitChar (d / 10) ≤ '2') ∧
        isDigitChar (digitChar (d % 10)) = true) := by
      rintro ⟨⟨hx, -⟩, -⟩
      rw [one_le_digitChar_iff ha] at hx
      omega
    have hc3 : digitChar (d / 10) = '0' ∧ ('1' ≤ digitChar (d % 10) ∧
        digitChar (d % 10) ≤ '9') := by
      refine ⟨?_, ?_, digitChar_le_nine hb⟩
      · rw [hq]; decide
      · rw [one_le_digitChar_iff hb]; omega
    rw [if_neg hc1, if_neg hc2, if_pos hc3]
    simp only [Option.some.injEq]
    rw [digitVal_digitChar hb]
    omega
  · by_cases h29 : d ≤ 29
    · have hc1 : ¬(digitChar (d / 10) = '3' ∧ ('0' ≤ digitChar (d % 10) ∧
          digitChar (d % 10) ≤ '1')) := by
        rintro ⟨hx, -⟩
        rw [digitChar_eq_three_iff ha] at hx
        omega
      have hc2 : ('1' ≤ digitChar (d / 10) ∧ digitChar (d / 10) ≤ '2') ∧
          isDigitChar (digitChar (d % 10)) = true := by
        refine ⟨⟨?_, ?_⟩, isDigitChar_digitChar hb⟩
        · rw [one_le_digitChar_iff ha]; omega
        · rw [digitChar_le_two_iff ha]; omega
      rw [if_neg hc1, if_pos hc2]
      simp only [Option.some.injEq]
      rw [digitVal_digitChar ha, digitVal_digitChar hb]
      omega
    · have hq : d / 10 = 3 := by omega
      have hc1 : digitChar (d / 10) = '3' ∧ ('0' ≤ digitChar (d % 10) ∧
          digitChar (d % 10) ≤ '1') := by
        refine ⟨?_, zero_le_digitChar hb, ?_⟩
        · rw [hq]; decide
        · rw [digitChar_le_one_iff hb]; omega
      rw [if_pos hc1]
      simp only [Option.some.injEq]
      rw [digitVal_digitChar hb]
      omega

theorem dropWhile_eq_self_of_none {p : Char → Bool} {cs : List Char}
    (h : ∀ c ∈ cs, p c = false) : cs.dropWhile p = cs := by
  cases cs with
  | nil => rfl
  | cons a t =>
      have hp := h a (List.mem_cons_self a t)
      rw [List.dropWhile_cons, if_neg (by simp [hp])]

theorem pyStrip_noop {cs : List Char} (h : ∀ c ∈ cs, pyIsSpace c = false) :
    pyStrip cs = cs := by
  unfold pyStrip
  rw [dropWhile_eq_self_of_none h,
    dropWhile_eq_self_of_none (fun c hc => h c (List.mem_reverse.mp hc)),
    List.reverse_reverse]

theorem contains_eq_false_of_not_mem {cs : List Char} {a : Char} (h : a ∉ cs) :
    cs.contains a = false := by
  cases hq : cs.contains a with
  | false => rfl
  | true => exact absurd (List.mem_of_elem_eq_true hq) h

theorem pad2_not_space {n : Nat} (hn : n ≤ 99) : ∀ c ∈ pad2 n, pyIsSpace c = false := by
  intro c hc
  simp only [pad2, List.mem_cons, List.not_mem_nil, or_false] at hc
  rcases hc with rfl | rfl
  all_goals (apply digitChar_not_space; omega)

theorem pad4_not_space {n : Nat} (hn : n ≤ 9999) : ∀ c ∈ pad4 n, pyIsSpace c = false := by
  intro c hc
  simp only [pad4, List.mem_cons, List.not_mem_nil, or_false] at hc
  rcases hc with rfl | rfl | rfl | rfl
  all_goals (apply digitChar_not_space; omega)

theorem pad2_ne_dash {n : Nat} (hn : n ≤ 99) : ∀ c ∈ pad2 n, c ≠ '-' := by
  intro c hc
  simp only [pad2, List.mem_cons, List.not_mem_nil, or_false] at hc
  rcases hc with rfl | rfl
  all_goals (apply digitChar_ne_dash; omega)

theorem pad4_ne_dash {n : Nat} (hn : n ≤ 9999) : ∀ c ∈ pad4 n, c ≠ '-' := by
  intro c hc
  simp only [pad4, List.mem_cons, List.not_mem_nil, or_false] at hc
  rcases hc with rfl | rfl | rfl | rfl
  all_goals (apply digitChar_ne_dash; omega)

theorem parse_date_iso {y m d : Nat} (hy1 : 1 ≤ y) (hy2 : y ≤ 9999) (hm1 : 1 ≤ m)
    (hm2 : m ≤ 12) (hd1 : 1 ≤ d) (hdm : d ≤ monthLength (y : Int) m) :
    parse_date (isoString y m d) = some ⟨(y : Int), m, d⟩ := by
  have hd31 : d ≤ 31 := le_trans hdm (monthLength_le_31 _ _)
  unfold parse_date isoString
  dsimp only
  have hmem : ∀ c ∈ (pad4 y ++ '-' :: (pad2 m ++ '-' :: pad2 d)), pyIsSpace c = false := by
    intro c hc
    rcases List.mem_append.mp hc with h | h
    · exact pad4_not_space (by omega) c h
    · rcases List.mem_cons.mp h with rfl | h
      · decide
      · rcases List.mem_append.mp h with h | h
        · exact pad2_not_space (by omega) c h
        · rcases List.mem_cons.mp h with rfl | h
          · decide
          · exact pad2_not_space (by omega) c h
  rw [pyStrip_noop hmem]
  rw [if_neg (by simp [pad4])]
  rw [if_pos (List.elem_eq_true_of_mem (by simp))]
  unfold strptimeYMD
  rw [matchY4_pad4 hy2]
  dsimp only
  rw [if_pos rfl]
  rw [matchMonthSep_pad2 '-' hm1 hm2]
  dsimp only
  rw [matchDayEnd_pad2 hd1 hd31]
  dsimp only
  unfold mkPyDate
  rw [if_pos ⟨hy1, hy2, hm1, hm2, hd1, hdm⟩]

theorem parse_date_dmy {y m d : Nat} (hy1 : 1 ≤ y) (hy2 : y ≤ 9999) (hm1 : 1 ≤ m)
    (hm2 : m ≤ 12) (hd1 : 1 ≤ d) (hdm : d ≤ monthLength (y : Int) m) :
    parse_date (dmyString y m d) = some ⟨(y : Int), m, d⟩ := by
  have hd31 : d ≤ 31 := le_trans hdm (monthLength_le_31 _ _)
  unfold parse_date dmyString
  dsimp only
  have hmem : ∀ c ∈ (pad2 d ++ '.' :: (pad2 m ++ '.' :: pad4 y)), pyIsSpace c = false := by
    intro c hc
    rcases List.mem_append.mp hc with h | h
    · exact pad2_not_space (by omega) c h
    · rcases List.mem_cons.mp h with rfl | h
      · decide
      · rcases List.mem_append.mp h with h | h
        · exact pad2_not_space (by omega) c h
        · rcases List.mem_cons.mp h with rfl | h
          · decide
          · exact pad4_not_space (by omega) c h
  rw [pyStrip_noop hmem]
  rw [if_neg (by simp [pad2])]
  have hnodash : ('-' : Char) ∉ (pad2 d ++ '.' :: (pad2 m ++ '.' :: pad4 y)) := by
    intro hc
    rcases List.mem_append.mp hc with h | h
    · exact pad2_ne_dash (by omega) _ h rfl
    · rcases List.mem_cons.mp h with he | h
      · exact absurd he (by decide)
      · rcases List.mem_append.mp h with h | h
        · exact pad2_ne_dash (by omega) _ h rfl
        · rcases List.mem_cons.mp h with he | h
          · exact absurd he (by decide)
          · exact pad4_ne_dash (by omega) _ h rfl
  rw [if_neg (by rw [contains_eq_false_of_not_mem hnodash]; simp)]
  rw [if_pos (List.elem_eq_true_of_mem (by simp))]
  unfold strptimeDMY
  rw [matchDaySep_pad2 '.' hd1 hd31]
  dsimp only
  rw [matchMonthSep_pad2 '.' hm1 hm2]
  dsimp only
  rw [matchY4End_pad4 hy2]
  dsimp only
  unfold mkPyDate
  rw [if_pos ⟨hy1, hy2, hm1, hm2, hd1, hdm⟩]

/-- A row of the `persons` table (`Person` dataclass in `src/bot.py`). -/
structure Person where
  id : Nat
  chat_id : Int
  full_name : String
  birth : Option Date
  death : Option Date
  created_at : String
deriving DecidableEq

/-- `anniv.strftime('%d.%m')`. -/
def fmtDayMonth (d : Date) : String := String.mk (pad2 d.day ++ '.' :: pad2 d.month)

/-- One formatted reminder line from `send_reminders` (the f-string with
`years_str` present; `years` is never `None` on the reachable path since a
match implies the date is present). -/
def reminderLine (daysBefore : Int) (kind : String) (nm : String) (anniv : Date)
    (years : Int) : String :=
  "Напоминание: через " ++ toString daysBefore ++ " дня — " ++ kind ++ " <b>" ++ nm ++
    "</b> (дата: " ++ fmtDayMonth anniv ++ ") — " ++ toString years ++ "-я годовщина."

/-- The lines contributed by one record in `send_reminders`: the birth
event, then the death event.  The inner `none` fallbacks are unreachable:
a `some true` match forces the date and its normalization to be present. -/
def eventLines (daysBefore : Int) (today : Date) (p : Person) : List String :=
  let target := shift daysBefore today
  (if is_anniversary_in_days p.birth today daysBefore = some true then
    match p.birth with
    | some b =>
      match normalize_anniversary b target.year with
      | some anniv =>
          [reminderLine daysBefore "дата рождения" p.full_name anniv (anniv.year - b.year)]
      | none => []
    | none => []
  else []) ++
  (if is_anniversary_in_days p.death today daysBefore = some true then
    match p.death with
    | some b =>
      match normalize_anniversary b target.year with
      | some anniv =>
          [reminderLine daysBefore "дата смерти" p.full_name anniv (anniv.year - b.year)]
      | none => []
    | none => []
  else [])

/-- The `messages` list accumulated for one chat in `send_reminders`. -/
def chatMessages (daysBefore : Int) (today : Date) : List Person → List String
  | [] => []
  | p :: rest => eventLines daysBefore today p ++ chatMessages daysBefore today rest

/-- The owner loop of `send_reminders` from `src/bot.py`.  `chats` is the
store grouped by owner (`all_chat_ids` plus `list_persons`), `failing`
says for which chats `bot.send_message` raises.  The result is the list
of chat ids for which `bot.send_message` is invoked; since the call is
not wrapped in any error handling, an exception propagates out of the
loop and the remaining chats are not processed. -/
def send_reminders (daysBefore : Int) (failing : Int → Bool) (today : Date) :
    List (Int × List Person) → List Int
  | [] => []
  | (cid, people) :: rest =>
    if chatMessages daysBefore today people = [] then
      send_reminders daysBefore failing today rest
    else if failing cid then [cid]
    else cid :: send_reminders daysBefore failing today rest

/-- `remove_person(chat_id, pid)` from `src/bot.py`:
`DELETE FROM persons WHERE chat_id=? AND id=?`, returning the surviving
rows and whether `rowcount > 0`. -/
def remove_person (chat_id : Int) (pid : Nat) (store : List Person) :
    List Person × Bool :=
  (store.filter (fun p => !(p.chat_id == chat_id && p.id == pid)),
   store.any (fun p => p.chat_id == chat_id && p.id == pid))

/-- Everything after the first space, when there is one: models
`text.split(" ", 1)[1] if " " in text else ""` from `parse_add_args`. -/
def afterFirstSpace : List Char → Option (List Char)
  | [] => none
  | c :: rest => if c = ' ' then some rest else afterFirstSpace rest

/-- Python's `str.split(sep)` for a one-character separator. -/
def splitOnChar (sep : Char) : List Char → List (List Char)
  | [] => [[]]
  | c :: rest =>
    match splitOnChar sep rest with
    | [] => if c = sep then [[], []] else [[c]]
    | h :: t => if c = sep then [] :: h :: t else (c :: h) :: t

/-- `parse_add_args(text)` from `src/bot.py`: split off the command word,
split the payload on `;` (after turning newlines into `;`), strip each
field, and require a non-empty name and two parseable dates.
`Except.error` models the raised `ValueError` with its message. -/
def parse_add_args (text : String) : Except String (String × Option Date × Option Date) :=
  let payload : List Char :=
    match afterFirstSpace text.data with
    | some p => p
    | none => []
  if payload = [] then Except.error "Укажите: ФИО; дата рождения; дата смерти"
  else
    match (splitOnChar ';' (payload.map (fun c => if c = '\n' then ';' else c))).map pyStrip with
    | full_name :: p1 :: p2 :: _ =>
      let b := parse_date (String.mk p1)
      let d := parse_date (String.mk p2)
      if full_name = [] then Except.error "ФИО не должно быть пустым"
      else if b.isNone || d.isNone then
        Except.error "Даты должны быть в формате YYYY-MM-DD или DD.MM.YYYY"
      else Except.ok (String.mk full_name, b, d)
    | _ => Except.error "Нужно три поля: ФИО; дата рождения; дата смерти"

theorem mkPyDate_valid {y m d : Nat} {dte : Date} (h : mkPyDate y m d = some dte) :
    isValidDate dte = true := by
  unfold mkPyDate at h
  split_ifs at h with hc
  cases h
  unfold isValidDate
  dsimp only
  simp only [Bool.and_eq_true, decide_eq_true_eq]
  exact ⟨⟨⟨hc.2.2.1, hc.2.2.2.1⟩, hc.2.2.2.2.1⟩, hc.2.2.2.2.2⟩

theorem strptimeYMD_valid {cs : List Char} {dte : Date} (h : strptimeYMD cs = some dte) :
    isValidDate dte = true := by
  unfold strptimeYMD at h
  repeat' split at h
  all_goals first
    | exact mkPyDate_valid h
    | exact Option.noConfusion h

theorem strptimeDMY_valid {cs : List Char} {dte : Date} (h : strptimeDMY cs = some dte) :
    isValidDate dte = true := by
  unfold strptimeDMY at h
  repeat' split at h
  all_goals first
    | exact mkPyDate_valid h
    | exact Option.noConfusion h

theorem parse_date_valid {s : String} {dte : Date} (h : parse_date s = some dte) :
    isValidDate dte = true := by
  unfold parse_date at h
  dsimp only at h
  by_cases h1 : pyStrip s.data = []
  · rw [if_pos h1] at h
    exact Option.noConfusion h
  · rw [if_neg h1] at h
    by_cases h2 : (pyStrip s.data).contains '-' = true
    · rw [if_pos h2] at h
      exact strptimeYMD_valid h
    · rw [if_neg h2] at h
      by_cases h3 : (pyStrip s.data).contains '.' = true
      · rw [if_pos h3] at h
        exact strptimeDMY_valid h
      · rw [if_neg h3] at h
        exact Option.noConfusion h

instance {ε α : Type} [DecidableEq ε] [DecidableEq α] : DecidableEq (Except ε α) := fun x y =>
  match x, y with
  | .error a, .error b =>
      if h : a = b then .isTrue (congrArg Except.error h)
      else .isFalse (fun hh => h (Except.error.inj hh))
  | .ok a, .ok b =>
      if h : a = b then .isTrue (congrArg Except.ok h)
      else .isFalse (fun hh => h (Except.ok.inj hh))
  | .error _, .ok _ => .isFalse (fun hh => Except.noConfusion hh)
  | .ok _, .error _ => .isFalse (fun hh => Except.noConfusion hh)

/-- C1: `is_anniversary_in_days` returns `false` for a missing original
date; for any valid original it compares the month and day of the
normalized anniversary in the target year against
`target = today + leadDays` (and never raises); and with
`today = 2024-01-01`, `leadDays = 3`, every original with month/day
01-04 matches, for any year, while every original with month/day 01-05
does not. -/
theorem c1_isUpcoming_contract :
    (∀ (today : Date) (lead : Int), is_anniversary_in_days none today lead = some false) ∧
    (∀ (d today : Date) (lead : Int), isValidDate d = true →
      ∃ a, normalize_anniversary d (shift lead today).year = some a ∧
        is_anniversary_in_days (some d) today lead =
          some (a.month == (shift lead today).month && a.day == (shift lead today).day)) ∧
    (∀ y : Int, is_anniversary_in_days (some ⟨y, 1, 4⟩) ⟨2024, 1, 1⟩ 3 = some true) ∧
    (∀ y : Int, is_anniversary_in_days (some ⟨y, 1, 5⟩) ⟨2024, 1, 1⟩ 3 = some false) := by
  have htarget : shift 3 ⟨2024, 1, 1⟩ = ⟨2024, 1, 4⟩ := by decide
  refine ⟨fun today lead => rfl, ?_, ?_, ?_⟩
  · intro d today lead hv
    refine ⟨⟨(shift lead today).year, d.month, annivDay d (shift lead today).year⟩,
      normalize_anniversary_eq hv (shift lead today).year, ?_⟩
    exact is_anniversary_eq hv today lead
  · intro y
    have hv : isValidDate ⟨y, 1, 4⟩ = true := by
      unfold isValidDate monthLength
      norm_num
    rw [is_anniversary_eq hv, htarget]
    unfold annivDay
    norm_num
  · intro y
    have hv : isValidDate ⟨y, 1, 5⟩ = true := by
      unfold isValidDate monthLength
      norm_num
    rw [is_anniversary_eq hv, htarget]
    unfold annivDay
    norm_num

/-- Witness for C1 at the original 1990-01-04, today 2024-01-01, lead 3. -/
theorem c1_witness :
    ∃ a, normalize_anniversary ⟨1990, 1, 4⟩ (shift 3 ⟨2024, 1, 1⟩).year = some a ∧
      is_anniversary_in_days (some ⟨1990, 1, 4⟩) ⟨2024, 1, 1⟩ 3 =
        some (a.month == (shift 3 ⟨2024, 1, 1⟩).month &&
              a.day == (shift 3 ⟨2024, 1, 1⟩).day) := by
  obtain ⟨a, h1, h2⟩ := c1_isUpcoming_contract.2.1 ⟨1990, 1, 4⟩ ⟨2024, 1, 1⟩ 3 (by decide)
  exact ⟨a, h1, h2⟩

/-- C2: for any valid original date and any target year,
`normalize_anniversary` re-anchors month and day to the target year,
except that February 29 becomes February 28 in a non-leap target year;
it never raises on valid inputs, and in particular
`normalize_anniversary(2000-02-29, 2021) = 2021-02-28` and
`normalize_anniversary(2000-02-29, 2024) = 2024-02-29`. -/
theorem c2_anniversaryIn_policy :
    (∀ d : Date, isValidDate d = true → ∀ y : Int,
      (d.month = 2 ∧ d.day = 29 ∧ isLeap y = false →
        normalize_anniversary d y = some ⟨y, 2, 28⟩) ∧
      (¬(d.month = 2 ∧ d.day = 29 ∧ isLeap y = false) →
        normalize_anniversary d y = some ⟨y, d.month, d.day⟩)) ∧
    normalize_anniversary ⟨2000, 2, 29⟩ 2021 = some ⟨2021, 2, 28⟩ ∧
    normalize_anniversary ⟨2000, 2, 29⟩ 2024 = some ⟨2024, 2, 29⟩ := by
  refine ⟨?_, by decide, by decide⟩
  intro d hv y
  constructor
  · rintro ⟨hm, h29, hl⟩
    rw [normalize_anniversary_eq hv]
    unfold annivDay
    rw [if_pos ⟨hm, h29, hl⟩, hm]
  · intro hc
    rw [normalize_anniversary_eq hv]
    unfold annivDay
    rw [if_neg hc]

/-- Witness for C2 at the original 2000-02-29 and target year 2021. -/
theorem c2_witness : normalize_anniversary ⟨2000, 2, 29⟩ 2021 = some ⟨2021, 2, 28⟩ :=
  (c2_anniversaryIn_policy.1 ⟨2000, 2, 29⟩ (by decide) 2021).1 ⟨rfl, rfl, by decide⟩

/-- C3: for a fixed valid original date and lead time, among all valid
trigger days `today` whose target `today + leadDays` falls in a given
year there is exactly one on which `is_anniversary_in_days` matches —
an anniversary is detected exactly once per target year. -/
theorem c3_once_per_year (d : Date) (hd : isValidDate d = true) (lead y : Int) :
    ∃! today : Date, isValidDate today = true ∧ (shift lead today).year = y ∧
      is_anniversary_in_days (some d) today lead = some true :=
  existsUnique_trigger hd lead y

/-- Witness for C3 at the February-29 original 2000-02-29, lead 3, and
the non-leap target year 2021. -/
theorem c3_witness :
    ∃! today : Date, isValidDate today = true ∧ (shift 3 today).year = 2021 ∧
      is_anniversary_in_days (some ⟨2000, 2, 29⟩) today 3 = some true :=
  c3_once_per_year ⟨2000, 2, 29⟩ (by decide) 3 2021

/-- C10: the matching decision of `is_anniversary_in_days` depends only
on the original date's month and day, never on its year. -/
theorem c10_match_ignores_year (d1 d2 : Date) (hm : d1.month = d2.month)
    (hd : d1.day = d2.day) (today : Date) (lead : Int) :
    is_anniversary_in_days (some d1) today lead =
      is_anniversary_in_days (some d2) today lead := by
  unfold is_anniversary_in_days
  dsimp only
  have hn : normalize_anniversary d1 (shift lead today).year =
      normalize_anniversary d2 (shift lead today).year := by
    unfold normalize_anniversary replaceYear
    rw [hm, hd]
  rw [hn]

/-- Witness for C10: originals 1990-01-04 and 2003-01-04 match identically. -/
theorem c10_witness :
    is_anniversary_in_days (some ⟨1990, 1, 4⟩) ⟨2024, 1, 1⟩ 3 =
      is_anniversary_in_days (some ⟨2003, 1, 4⟩) ⟨2024, 1, 1⟩ 3 :=
  c10_match_ignores_year ⟨1990, 1, 4⟩ ⟨2003, 1, 4⟩ rfl rfl ⟨2024, 1, 1⟩ 3

/-- C4 counterexample: `parse_date("2020/01/01")` does not fail with a
distinct error — the `ValueError` from `strptime` is swallowed by the
bare `except ValueError: pass`, so the call returns `none`, the very
same outcome as for the empty string. -/
theorem c4_counterexample : parse_date "2020/01/01" = none ∧ parse_date "" = none :=
  ⟨by decide, by decide⟩

/-- C4 (amended): `parse_date` trims whitespace and returns `none` not
only for empty input but for every unaccepted form — wrong separators,
malformed digits and invalid calendar dates all yield `none`; there is
no distinct error outcome, and every successful parse is a valid date. -/
theorem c4_parse_none_for_bad_input :
    parse_date "" = none ∧
    parse_date "   " = none ∧
    parse_date "2020/01/01" = none ∧
    parse_date "2021-02-30" = none ∧
    parse_date "abc" = none ∧
    parse_date " 2020-01-05 " = some ⟨2020, 1, 5⟩ ∧
    (∀ (s : String) (dte : Date), parse_date s = some dte → isValidDate dte = true) := by
  refine ⟨by decide, by decide, by decide, by decide, by decide, by decide, ?_⟩
  intro s dte h
  exact parse_date_valid h

/-- Witness for C4's amended claim at a concrete successful parse. -/
theorem c4_witness : isValidDate ⟨2020, 1, 5⟩ = true :=
  c4_parse_none_for_bad_input.2.2.2.2.2.2 " 2020-01-05 " ⟨2020, 1, 5⟩ (by decide)

/-- C7: parsing the `YYYY-MM-DD` form and the `DD.MM.YYYY` form of the
same valid calendar date both succeed and produce the same date. -/
theorem c7_two_forms_agree (y m d : Nat) (hy1 : 1 ≤ y) (hy2 : y ≤ 9999)
    (hm1 : 1 ≤ m) (hm2 : m ≤ 12) (hd1 : 1 ≤ d) (hdm : d ≤ monthLength (y : Int) m) :
    parse_date (isoString y m d) = some ⟨(y : Int), m, d⟩ ∧
    parse_date (dmyString y m d) = some ⟨(y : Int), m, d⟩ ∧
    parse_date (isoString y m d) = parse_date (dmyString y m d) := by
  have h1 := parse_date_iso hy1 hy2 hm1 hm2 hd1 hdm
  have h2 := parse_date_dmy hy1 hy2 hm1 hm2 hd1 hdm
  exact ⟨h1, h2, h1.trans h2.symm⟩

/-- Witness for C7 at 1950-09-15. -/
theorem c7_witness :
    parse_date (isoString 1950 9 15) = some ⟨(1950 : Int), 9, 15⟩ ∧
    parse_date (dmyString 1950 9 15) = some ⟨(1950 : Int), 9, 15⟩ ∧
    parse_date (isoString 1950 9 15) = parse_date (dmyString 1950 9 15) :=
  c7_two_forms_agree 1950 9 15 (by decide) (by decide) (by decide) (by decide)
    (by decide) (by decide)

/-- C9: removing by (owner, id) touches at most the single row with that
key: when no row has that owner and id — including an id that exists
only under a different owner — the call returns `false` and leaves the
store unchanged; with unique ids at most one row is deleted; and every
row with a different key survives. -/
theorem c9_remove_frame :
    (∀ (chat : Int) (pid : Nat) (store : List Person),
      (∀ p ∈ store, ¬(p.chat_id = chat ∧ p.id = pid)) →
      remove_person chat pid store = (store, false)) ∧
    (∀ (chat : Int) (pid : Nat) (store : List Person),
      store.Pairwise (fun a b => a.id ≠ b.id) →
      store.length ≤ (remove_person chat pid store).1.length + 1) ∧
    (∀ (chat : Int) (pid : Nat) (store : List Person) (p : Person),
      p ∈ store → ¬(p.chat_id = chat ∧ p.id = pid) →
      p ∈ (remove_person chat pid store).1) := by
  refine ⟨?_, ?_, ?_⟩
  · intro chat pid store h
    unfold remove_person
    have hf : store.filter (fun p => !(p.chat_id == chat && p.id == pid)) = store := by
      apply List.filter_eq_self.mpr
      intro p hp
      rcases Bool.eq_false_or_eq_true (p.chat_id == chat && p.id == pid) with hb | hb
      · exact absurd (by simpa [Bool.and_eq_true, beq_iff_eq] using hb) (h p hp)
      · simp [hb]
    have ha : store.any (fun p => p.chat_id == chat && p.id == pid) = false := by
      rcases Bool.eq_false_or_eq_true
          (store.any (fun p => p.chat_id == chat && p.id == pid)) with hb | hb
      · obtain ⟨p, hp, hpb⟩ := List.any_eq_true.mp hb
        exact absurd (by simpa [Bool.and_eq_true, beq_iff_eq] using hpb) (h p hp)
      · exact hb
    rw [hf, ha]
  · intro chat pid store hpw
    induction store with
    | nil => simp [remove_person]
    | cons a t ih =>
        have hha := (List.pairwise_cons.mp hpw).1
        have hpw' := (List.pairwise_cons.mp hpw).2
        have hrec := ih hpw'
        unfold remove_person at *
        dsimp only at *
        rcases Bool.eq_false_or_eq_true (a.chat_id == chat && a.id == pid) with hk | hk
        · have hkk : a.chat_id = chat ∧ a.id = pid := by
            simpa [Bool.and_eq_true, beq_iff_eq] using hk
          have haid : a.id = pid := hkk.2
          have ht : t.filter (fun p => !(p.chat_id == chat && p.id == pid)) = t := by
            apply List.filter_eq_self.mpr
            intro p hp
            have hne := hha p hp
            rcases Bool.eq_false_or_eq_true (p.chat_id == chat && p.id == pid) with hb | hb
            · have hpk : p.chat_id = chat ∧ p.id = pid := by
                simpa [Bool.and_eq_true, beq_iff_eq] using hb
              exact absurd (haid.trans hpk.2.symm) hne
            · simp [hb]
          rw [List.filter_cons, if_neg (by simp [hk]), ht]
          dsimp only [List.length_cons]
          omega
        · rw [List.filter_cons, if_pos (by simp [hk])]
          dsimp only [List.length_cons]
          omega
  · intro chat pid store p hp hkey
    unfold remove_person
    dsimp only
    apply List.mem_filter.mpr
    refine ⟨hp, ?_⟩
    rcases Bool.eq_false_or_eq_true (p.chat_id == chat && p.id == pid) with hb | hb
    · exact absurd (by simpa [Bool.and_eq_true, beq_iff_eq] using hb) hkey
    · simp [hb]

/-- Witness for C9: the id exists, but only under a different owner, so
nothing is removed and the call reports `false`. -/
theorem c9_witness :
    remove_person 2 1 [⟨1, 1, "A", none, none, ""⟩] =
      ([⟨1, 1, "A", none, none, ""⟩], false) :=
  c9_remove_frame.1 2 1 [⟨1, 1, "A", none, none, ""⟩] (by decide)

/-- C5 counterexample: two owners both have a matching record and
delivery fails for the first; the scan attempts delivery only for the
first owner — the exception from `bot.send_message` propagates out of
the owner loop, so the second owner never receives its delivery call. -/
theorem c5_counterexample :
    send_reminders 3 (fun c => c == 1) ⟨2024, 1, 1⟩
        [(1, [⟨1, 1, "A", some ⟨1990, 1, 4⟩, none, ""⟩]),
         (2, [⟨2, 2, "B", some ⟨1990, 1, 4⟩, none, ""⟩])] = [1] ∧
    (2 : Int) ∉ send_reminders 3 (fun c => c == 1) ⟨2024, 1, 1⟩
        [(1, [⟨1, 1, "A", some ⟨1990, 1, 4⟩, none, ""⟩]),
         (2, [⟨2, 2, "B", some ⟨1990, 1, 4⟩, none, ""⟩])] :=
  ⟨by decide, by decide⟩

/-- C5 (amended): a delivery failure for one owner aborts the scan: when
delivery fails for owner `c`, whose message is non-empty, and no earlier
owner fails, the attempted deliveries are exactly those of the preceding
owners followed by `c` — every owner after `c` receives no delivery
call. -/
theorem c5_failure_aborts_scan (daysBefore : Int) (failing : Int → Bool) (today : Date)
    (pre : List (Int × List Person)) (c : Int) (ps : List Person)
    (post : List (Int × List Person))
    (hpre : ∀ q ∈ pre, failing q.1 = false)
    (hc : failing c = true)
    (hmsg : chatMessages daysBefore today ps ≠ []) :
    send_reminders daysBefore failing today (pre ++ (c, ps) :: post) =
      send_reminders daysBefore failing today pre ++ [c] := by
  induction pre with
  | nil =>
      simp only [List.nil_append]
      unfold send_reminders
      rw [if_neg hmsg, if_pos hc]
      rfl
  | cons q rest ih =>
      obtain ⟨qc, qps⟩ := q
      have hq0 : failing qc = false := hpre (qc, qps) (List.mem_cons_self _ _)
      have hpre2 : ∀ p ∈ rest, failing p.1 = false :=
        fun p hp => hpre p (List.mem_cons_of_mem _ hp)
      have ihh := ih hpre2
      simp only [List.cons_append]
      unfold send_reminders
      by_cases hq : chatMessages daysBefore today qps = []
      · rw [if_pos hq, if_pos hq]
        exact ihh
      · rw [if_neg hq, if_neg hq, if_neg (by simp [hq0]), if_neg (by simp [hq0])]
        rw [ihh, List.cons_append]

/-- Witness for C5's amended claim: one healthy owner with no matches,
then a failing owner with a match, then a further owner; the trace stops
at the failing owner. -/
theorem c5_witness :
    send_reminders 3 (fun c => c == 1) ⟨2024, 1, 1⟩
        ([(5, ([] : List Person))] ++
          (1, [⟨1, 1, "A", some ⟨1990, 1, 4⟩, none, ""⟩]) ::
            [(2, [⟨2, 2, "B", some ⟨1990, 1, 4⟩, none, ""⟩])]) =
      send_reminders 3 (fun c => c == 1) ⟨2024, 1, 1⟩ [(5, ([] : List Person))] ++ [1] :=
  c5_failure_aborts_scan 3 (fun c => c == 1) ⟨2024, 1, 1⟩ [(5, [])] 1
    [⟨1, 1, "A", some ⟨1990, 1, 4⟩, none, ""⟩]
    [(2, [⟨2, 2, "B", some ⟨1990, 1, 4⟩, none, ""⟩])]
    (by decide) (by decide) (by decide)

/-- C6: a record whose birth and death dates both match on the same scan
day contributes exactly two separate lines to its owner's message — one
for the birth event and one for the death event; and an owner all of
whose records produce no matching lines receives no delivery call. -/
theorem c6_two_lines_and_silence :
    (∀ (daysBefore : Int) (today : Date) (p : Person),
      is_anniversary_in_days p.birth today daysBefore = some true →
      is_anniversary_in_days p.death today daysBefore = some true →
      ∃ b dd ab ad, p.birth = some b ∧ p.death = some dd ∧
        normalize_anniversary b (shift daysBefore today).year = some ab ∧
        normalize_anniversary dd (shift daysBefore today).year = some ad ∧
        eventLines daysBefore today p =
          [reminderLine daysBefore "дата рождения" p.full_name ab (ab.year - b.year),
           reminderLine daysBefore "дата смерти" p.full_name ad (ad.year - dd.year)]) ∧
    (∀ (daysBefore : Int) (failing : Int → Bool) (today : Date)
      (chats : List (Int × List Person)) (cid : Int),
      (∀ entry ∈ chats, entry.1 = cid → chatMessages daysBefore today entry.2 = []) →
      cid ∉ send_reminders daysBefore failing today chats) := by
  constructor
  · intro daysBefore today p hb hd
    cases hpb : p.birth with
    | none =>
        rw [hpb] at hb
        simp [is_anniversary_in_days] at hb
    | some b =>
        cases hpd : p.death with
        | none =>
            rw [hpd] at hd
            simp [is_anniversary_in_days] at hd
        | some dd =>
            rw [hpb] at hb
            rw [hpd] at hd
            have hb2 := hb
            have hd2 := hd
            unfold is_anniversary_in_days at hb2 hd2
            dsimp only at hb2 hd2
            cases hnb : normalize_anniversary b (shift daysBefore today).year with
            | none =>
                rw [hnb] at hb2
                simp at hb2
            | some ab =>
                cases hnd : normalize_anniversary dd (shift daysBefore today).year with
                | none =>
                    rw [hnd] at hd2
                    simp at hd2
                | some ad =>
                    refine ⟨b, dd, ab, ad, rfl, rfl, hnb, hnd, ?_⟩
                    unfold eventLines
                    rw [hpb, hpd]
                    dsimp only
                    rw [if_pos hb, if_pos hd]
                    rw [hnb, hnd]
                    rfl
  · intro daysBefore failing today chats cid
    induction chats with
    | nil =>
        intro _
        simp [send_reminders]
    | cons q rest ih =>
        intro hempty
        obtain ⟨qc, qps⟩ := q
        unfold send_reminders
        by_cases hq : chatMessages daysBefore today qps = []
        · rw [if_pos hq]
          exact ih (fun e he hcid => hempty e (List.mem_cons_of_mem _ he) hcid)
        · rw [if_neg hq]
          have hne : qc ≠ cid :=
            fun he => hq (hempty (qc, qps) (List.mem_cons_self _ _) he)
          by_cases hfq : failing qc = true
          · rw [if_pos hfq]
            exact fun hmem => hne (List.mem_singleton.mp hmem).symm
          · rw [if_neg hfq]
            intro hmem
            rcases List.mem_cons.mp hmem with he | he
            · exact hne he.symm
            · exact ih (fun e hee hcid => hempty e (List.mem_cons_of_mem _ hee) hcid) he

/-- Witness for C6: a record with birth 1990-01-04 and death 2000-01-04,
both matching on 2024-01-01 with lead 3, yields exactly the two lines;
and a chat whose only entry has no records gets no delivery call. -/
theorem c6_witness :
    (∃ b dd ab ad,
      (⟨2, 1, "B", some ⟨1990, 1, 4⟩, some ⟨2000, 1, 4⟩, ""⟩ : Person).birth = some b ∧
      (⟨2, 1, "B", some ⟨1990, 1, 4⟩, some ⟨2000, 1, 4⟩, ""⟩ : Person).death = some dd ∧
      normalize_anniversary b (shift 3 ⟨2024, 1, 1⟩).year = some ab ∧
      normalize_anniversary dd (shift 3 ⟨2024, 1, 1⟩).year = some ad ∧
      eventLines 3 ⟨2024, 1, 1⟩ ⟨2, 1, "B", some ⟨1990, 1, 4⟩, some ⟨2000, 1, 4⟩, ""⟩ =
        [reminderLine 3 "дата рождения"
            (⟨2, 1, "B", some ⟨1990, 1, 4⟩, some ⟨2000, 1, 4⟩, ""⟩ : Person).full_name ab
            (ab.year - b.year),
         reminderLine 3 "дата смерти"
            (⟨2, 1, "B", some ⟨1990, 1, 4⟩, some ⟨2000, 1, 4⟩, ""⟩ : Person).full_name ad
            (ad.year - dd.year)]) ∧
    (3 : Int) ∉ send_reminders 3 (fun _ => false) ⟨2024, 1, 1⟩ [(3, [])] :=
  ⟨c6_two_lines_and_silence.1 3 ⟨2024, 1, 1⟩
      ⟨2, 1, "B", some ⟨1990, 1, 4⟩, some ⟨2000, 1, 4⟩, ""⟩ (by decide) (by decide),
   c6_two_lines_and_silence.2 3 (fun _ => false) ⟨2024, 1, 1⟩ [(3, [])] 3 (by decide)⟩

/-- C8 counterexample: in the add operation an empty date field is not
treated as absent — `parse_add_args` raises (`ValueError`, modelled as
`Except.error`) because `parse_date` returns `None` for the empty field
and the code rejects a `None` date. -/
theorem c8_counterexample :
    parse_add_args "/add X; ; 2020-01-01" =
      Except.error "Даты должны быть в формате YYYY-MM-DD или DD.MM.YYYY" := by
  decide

/-- C8 (amended): in the add operation both date fields are mandatory:
`parse_add_args` succeeds only with a non-empty name and two
successfully parsed dates, so a record can never be created through
`/add` with either date missing (an empty field is rejected with an
error, not treated as absent). -/
theorem c8_add_requires_both_dates (text nm : String) (b dd : Option Date)
    (h : parse_add_args text = Except.ok (nm, b, dd)) :
    nm ≠ "" ∧ b.isSome = true ∧ dd.isSome = true := by
  unfold parse_add_args at h
  dsimp only at h
  repeat' split at h
  all_goals try exact absurd h (fun hh => Except.noConfusion hh)
  rename_i full_name p1 p2 tl heq hname hdates
  injection h with hpair
  cases hpair
  refine ⟨?_, ?_, ?_⟩
  · exact fun he => hname (congrArg String.data he)
  · rcases hox : parse_date (String.mk p1) with _ | v
    · rw [hox] at hdates
      simp at hdates
    · simp
  · rcases hox : parse_date (String.mk p2) with _ | v
    · rw [hox] at hdates
      simp at hdates
    · simp

/-- Witness for C8's amended claim at a concrete successful add command. -/
theorem c8_witness :
    ("A" : String) ≠ "" ∧ (some (⟨2020, 1, 5⟩ : Date)).isSome = true ∧
      (some (⟨2021, 2, 1⟩ : Date)).isSome = true :=
  c8_add_requires_both_dates "/add A; 2020-01-05; 01.02.2021" "A"
    (some ⟨2020, 1, 5⟩) (some ⟨2021, 2, 1⟩) (by decide)
